import Mathlib

/-!
Verification of the came.plus/test HTTP server (src/index.ts) against its
natural-language specification.  The TypeScript source is shallowly embedded:
the pure argument parsing, address classification and port-scan logic become
Lean functions, and the effectful layers (socket binds, DNS answers, platform
dispatch, console printing) are modelled by passing the environment explicitly
and recording the observable actions as data.
-/

/-- Models the JavaScript test `a.startsWith(pre)` used by `parseArgs`
(src/index.ts lines 75-76 and 91-92). -/
def strStartsWith (a pre : String) : Bool :=
  pre.data.isPrefixOf a.data

/-- Models `a.split('=')[1]` (src/index.ts lines 79-80, 95, 100): JavaScript
`split('=')` with no limit cuts at every `=`, so index 1 is the segment of
`a` strictly between its first and second `=` sign.  In the source this is
only applied to tokens that start with `--port=` or `--bind=`, hence contain
at least one `=`. -/
def argValue (a : String) : String :=
  String.mk (((a.data.dropWhile (fun c => c != '=')).drop 1).takeWhile (fun c => c != '='))

/-- Numeric value of a list of decimal digit characters, most significant
first (the accumulation a JS `parseInt` performs over the digit prefix). -/
def digitsValN (ds : List Char) : Nat :=
  ds.foldl (fun a c => a * 10 + (c.toNat - 48)) 0

/-- Core of JavaScript `parseInt(s, 10)` after whitespace stripping: an
optional single sign, then the longest prefix of decimal digits; `none`
models `NaN` (no digits at all). -/
def jsParseIntCore (cs : List Char) : Option Int :=
  match cs with
  | [] => none
  | c :: rest =>
    let body : List Char := if c = '+' then rest else if c = '-' then rest else c :: rest
    let sign : Int := if c = '-' then -1 else 1
    let ds := body.takeWhile Char.isDigit
    if ds.isEmpty then none else some (sign * (digitsValN ds : Int))

/-- Models JavaScript `parseInt(s, 10)` (src/index.ts lines 79 and 95):
skip leading whitespace, optional sign, longest decimal-digit prefix,
`none` for `NaN`.  For the bounded comparisons the program performs the
double-precision rounding of huge literals is unobservable: both the model
and the source reject every value above 65535. -/
def jsParseInt (s : String) : Option Int :=
  jsParseIntCore (s.data.dropWhile Char.isWhitespace)

/-- The decimal digit character for `m % 10`-style values (58 = '9' caps the
default branch; only applied to arguments below 10). -/
def digitChar (m : Nat) : Char :=
  match m with
  | 0 => '0' | 1 => '1' | 2 => '2' | 3 => '3' | 4 => '4'
  | 5 => '5' | 6 => '6' | 7 => '7' | 8 => '8' | _ => '9'

/-- Fuel-driven digit expansion; the fuel strictly dominates the argument,
so the fuel-out branch is never reached. -/
def decCharsAux : Nat → Nat → List Char
  | 0, _ => []
  | fuel + 1, n =>
    if n < 10 then [digitChar n]
    else decCharsAux fuel (n / 10) ++ [digitChar (n % 10)]

/-- The decimal numeral of a natural number, as a list of characters. -/
def decChars (n : Nat) : List Char := decCharsAux (n + 1) n

/-- The decimal numeral of a natural number (used to state claims of the
form "the argument --port=N"). -/
def decStr (n : Nat) : String := String.mk (decChars n)

/-- Result of `parseArgs` (src/index.ts lines 56-107).  `help`, `version`,
`uninstall` and `install` are the dispatched commands (the source performs
their effect then calls `process.exit(0)`); `error` and `installError` model
the thrown port validation error, which the call site catches. -/
inductive ParseResult where
  | help
  | version
  | uninstall
  | install (port : Int) (bind : String) (ipv6 : Bool)
  | installError (msg : String)
  | run (port : Int) (bind : String)
  | error (msg : String)
deriving DecidableEq

/-- The validation message thrown at src/index.ts lines 83 and 103. -/
def portErrMsg : String := "Port must be a valid number between 1 and 65535."

/-- The port value computed by `parseArgs`: `parseInt` of the first
`--port=` token value, defaulting to 64001 (src/index.ts lines 75, 79,
91, 95).  `none` models `NaN`. -/
def portOf (args : List String) : Option Int :=
  match args.find? (fun a => strStartsWith a "--port=") with
  | some a => jsParseInt (argValue a)
  | none => some 64001

/-- The check `!(isNaN(port) || port < 1 || port > 65535)` guarding the
throw at src/index.ts lines 82-84 and 102-104. -/
def portValid : Option Int → Bool
  | none => false
  | some p => decide (1 ≤ p) && decide (p ≤ 65535)

/-- The bind value computed by `parseArgs`: value of the first `--bind=`
token, else `::` when `--ipv6` is present, else `0.0.0.0`
(src/index.ts lines 76-80 and 92-100). -/
def bindOf (args : List String) : String :=
  match args.find? (fun a => strStartsWith a "--bind=") with
  | some a => argValue a
  | none => if args.contains "--ipv6" then "::" else "0.0.0.0"

/-- The plain-run tail of `parseArgs` (src/index.ts lines 91-106). -/
def plainParse (args : List String) : ParseResult :=
  match portOf args with
  | some p =>
    if portValid (some p) then ParseResult.run p (bindOf args)
    else ParseResult.error portErrMsg
  | none => ParseResult.error portErrMsg

/-- The `install` branch of `parseArgs` (src/index.ts lines 74-89). -/
def installParse (args : List String) : ParseResult :=
  match portOf args with
  | some p =>
    if portValid (some p) then ParseResult.install p (bindOf args) (args.contains "--ipv6")
    else ParseResult.installError portErrMsg
  | none => ParseResult.installError portErrMsg

/-- `parseArgs` (src/index.ts lines 56-107): membership tests for
`--help`/`-h`, then `--version`/`-v`, then `uninstall`, then `install`,
then plain-run parsing. -/
def parseArgs (args : List String) : ParseResult :=
  if args.contains "--help" || args.contains "-h" then ParseResult.help
  else if args.contains "--version" || args.contains "-v" then ParseResult.version
  else if args.contains "uninstall" then ParseResult.uninstall
  else if args.contains "install" then installParse args
  else plainParse args

/-- The try/catch around the `parseArgs` call (src/index.ts lines 110-116):
a thrown validation error is printed as `Error: <message>` and the process
exits with code 1; any other result proceeds. -/
def errorExit : ParseResult → Option (Nat × String)
  | ParseResult.error m => some (1, "Error: " ++ m)
  | ParseResult.installError m => some (1, "Error: " ++ m)
  | _ => none

/-- The package metadata read once from package.json at startup
(src/index.ts lines 16-17). -/
structure Pkg where
  name : String
  version : String
deriving DecidableEq

/-- An HTTP response as far as the program determines it. -/
structure HttpResponse where
  status : Nat
  contentType : String
  body : String
deriving DecidableEq

/-- HTTP request methods. -/
inductive Method where
  | GET | POST | PUT | DELETE
deriving DecidableEq

/-- The Hono route table built at src/index.ts lines 119-124: a single
`app.get('/')` handler answering `c.text(name@version)`, which per the
framework is a 200 response with a text/plain content type; every other
request falls through to the framework default (no route, modelled as
`none`). -/
def handleRequest (pkg : Pkg) (m : Method) (path : String) : Option HttpResponse :=
  match m, path with
  | Method.GET, "/" =>
    some { status := 200, contentType := "text/plain; charset=UTF-8",
           body := pkg.name ++ "@" ++ pkg.version }
  | _, _ => none

/-- `isSpecialIPv6` (src/index.ts lines 127-141). -/
def isSpecialIPv6 (address : String) : Bool :=
  if address = "::1" then true
  else if address = "::" then true
  else if strStartsWith address "fe80:" then true
  else if strStartsWith address "fc00:" || strStartsWith address "fd00:" then true
  else false

/-- Executes the regex `^(?:[0-9]{1,3}\.){3}[0-9]{1,3}$` of `isIPv4Address`
(src/index.ts line 168).  `k` counts the `[0-9]{1,3}\.` groups still to be
matched.  Backtracking inside the regex engine is unobservable here: the
digit run of a group cannot extend past a non-digit and the separator `.` is not a
digit, so the greedy split below is the only possible one. -/
def ipv4Run : List Char → Nat → Bool
  | cs, k =>
    if (cs.takeWhile Char.isDigit).isEmpty || decide (3 < (cs.takeWhile Char.isDigit).length) then
      false
    else
      match k with
      | 0 => (cs.dropWhile Char.isDigit).isEmpty
      | k' + 1 =>
        match cs.dropWhile Char.isDigit with
        | d :: cs2 => if d = '.' then ipv4Run cs2 k' else false
        | [] => false

/-- `isIPv4Address` (src/index.ts lines 165-169). -/
def isIPv4Address (address : String) : Bool :=
  ipv4Run address.data 3

/-- `shouldShowIPv6` (src/index.ts lines 172-195). -/
def shouldShowIPv6 (bindAddress : String) (ipv6Enabled : Bool) : Bool :=
  if !ipv6Enabled then false
  else if bindAddress = "0.0.0.0" then false
  else if isIPv4Address bindAddress then false
  else true

/-- Interleaves the groups of a dotted decomposition with `.` separators
(specification-side notion used to characterise `isIPv4Address`). -/
def joinDots : List (List Char) → List Char
  | [] => []
  | [g] => g
  | g :: gs => g ++ '.' :: joinDots gs

/-- Characterisation predicate: `cs` consists of exactly `k + 1`
dot-separated groups of one to three decimal digits. -/
def IPv4Groups (cs : List Char) (k : Nat) : Prop :=
  ∃ gs : List (List Char), gs.length = k + 1 ∧ cs = joinDots gs ∧
    ∀ g ∈ gs, g ≠ [] ∧ g.length ≤ 3 ∧ ∀ c ∈ g, c.isDigit = true

/-- Outcome of the throwaway `server.listen(port, hostname)` attempt in
`isPortInUse` (src/index.ts lines 198-220): either the `listening` event
fires, or the `error` event fires with some error code. -/
inductive BindOutcome where
  | listening
  | error (code : String)
deriving DecidableEq

/-- What `isPortInUse` resolves to, together with whether a throwaway
listener is left open when the promise resolves. -/
structure PortProbe where
  inUse : Bool
  leftOpen : Bool
deriving DecidableEq

/-- `isPortInUse(port, hostname)` (src/index.ts lines 198-220) given the
outcome of the bind attempt: on `listening` the server is closed and the
promise resolves `false`; on an error it resolves `true` exactly for
`EADDRINUSE` and `false` for any other code (no listener was established
on the error path, so nothing is left open). -/
def isPortInUse (port : Nat) (hostname : String) (outcome : BindOutcome) : PortProbe :=
  match outcome with
  | BindOutcome.listening => { inUse := false, leftOpen := false }
  | BindOutcome.error code => { inUse := code == "EADDRINUSE", leftOpen := false }

/-- The probe loop of `findAvailablePort` (src/index.ts lines 271-284):
`fuel` probes remain, `port` is the cursor.  When the fuel is exhausted the
source returns `port === startPort ? 8080 : startPort + 10` with the mutated
cursor `port`.  `env` gives the bind outcome the operating system would
report for each probed port on the fixed hostname. -/
def findAvailablePortLoop (env : Nat → BindOutcome) (hostname : String) (startPort : Nat) : Nat → Nat → Nat
  | 0, port => if port = startPort then 8080 else startPort + 10
  | fuel + 1, port =>
    if (isPortInUse port hostname (env port)).inUse then
      findAvailablePortLoop env hostname startPort fuel (port + 1)
    else port

/-- `findAvailablePort(startPort, hostname)` (src/index.ts lines 271-284). -/
def findAvailablePort (env : Nat → BindOutcome) (startPort : Nat) (hostname : String) : Nat :=
  findAvailablePortLoop env hostname startPort 10 startPort

/-- Environment in which every probed port reports `EADDRINUSE`. -/
def allBusyEnv : Nat → BindOutcome := fun _ => BindOutcome.error "EADDRINUSE"

/-- Environment in which only port 5 binds successfully. -/
def freeAtFiveEnv : Nat → BindOutcome :=
  fun p => if p = 5 then BindOutcome.listening else BindOutcome.error "EADDRINUSE"

/-- Observable action of the service installer/uninstaller platform switch:
delegate to the Windows routine, print a "coming soon" notice and return
(after which the `parseArgs` call site exits 0), or print an error and exit
with the given code. -/
inductive ServiceAction where
  | windowsInstall
  | windowsUninstall
  | comingSoon (lines : List String)
  | exitWithMsg (code : Nat) (msg : String)
deriving DecidableEq

/-- `installService` (src/index.ts lines 699-718): switch on the platform. -/
def installService (platform : String) : ServiceAction :=
  if platform = "win32" then ServiceAction.windowsInstall
  else if platform = "linux" then
    ServiceAction.comingSoon
      ["Linux service installation not yet implemented. Coming soon!",
       "For now, you can create a systemd service manually."]
  else if platform = "darwin" then
    ServiceAction.comingSoon
      ["macOS service installation not yet implemented. Coming soon!",
       "For now, you can create a launchd service manually."]
  else ServiceAction.exitWithMsg 1 ("Service installation not supported on " ++ platform ++ " platform.")

/-- `uninstallService` (src/index.ts lines 794-813): switch on the platform. -/
def uninstallService (platform : String) : ServiceAction :=
  if platform = "win32" then ServiceAction.windowsUninstall
  else if platform = "linux" then
    ServiceAction.comingSoon
      ["Linux service uninstallation not yet implemented. Coming soon!",
       "For now, you can remove systemd services manually."]
  else if platform = "darwin" then
    ServiceAction.comingSoon
      ["macOS service uninstallation not yet implemented. Coming soon!",
       "For now, you can remove launchd services manually."]
  else ServiceAction.exitWithMsg 1 ("Service uninstallation not supported on " ++ platform ++ " platform.")

/-- One entry of an `os.networkInterfaces()` answer (src/index.ts
lines 379-387). -/
structure Iface where
  address : String
  family : String
  internal : Bool
  scopeid : Option Nat
deriving DecidableEq

/-- The `host:port` key format used for the `processedUrls` set
(src/index.ts lines 389-482). -/
def urlKey (host : String) (port : Nat) : String := host ++ ":" ++ toString port

/-- One iteration of the interface loop in the all-interfaces branch of the
startup reporter (src/index.ts lines 405-471).  The accumulator carries the
list of printed host:port keys (in order) and the contents of the
`processedUrls` set.  Direct interface URLs are printed and recorded
without a prior `has` check; the annotated localhost alias for `::1` and
the scope-id URL for link-local addresses are printed without being
recorded. -/
def ifaceStep (showIPv6 : Bool) (port : Nat) (acc : List String × List String) (iface : Iface) : List String × List String :=
  if iface.internal then acc
  else if iface.family == "IPv4" || iface.family == "4" then
    (acc.1 ++ [urlKey iface.address port], urlKey iface.address port :: acc.2)
  else if (iface.family == "IPv6" || iface.family == "6") && showIPv6 then
    let bKey := urlKey ("[" ++ iface.address ++ "]") port
    let extra : List String :=
      if isSpecialIPv6 iface.address then
        if iface.address = "::1" then [urlKey "localhost" port]
        else if strStartsWith iface.address "fe80:" then
          match iface.scopeid with
          | some sid => [urlKey ("[" ++ iface.address ++ "%" ++ toString sid ++ "]") port]
          | none => []
        else []
      else []
    (acc.1 ++ [bKey] ++ extra, bKey :: acc.2)
  else acc

/-- The synchronous part of the all-interfaces startup report
(src/index.ts lines 389-471): print `localhost`, optionally `[::1]`, then
every non-internal interface address.  Returns the printed keys in order
and the final `processedUrls` contents. -/
def syncPhase (interfaces : List (String × List Iface)) (port : Nat) (showIPv6 : Bool) : List String × List String :=
  let base : List String × List String := ([urlKey "localhost" port], [urlKey "localhost" port])
  let base2 : List String × List String :=
    if showIPv6 then (base.1 ++ [urlKey "[::1]" port], urlKey "[::1]" port :: base.2) else base
  ((interfaces.map Prod.snd).flatten).foldl (ifaceStep showIPv6 port) base2

/-- The check-then-add printing discipline shared by the machine-hostname
block (src/index.ts lines 473-482) and every reverse-DNS callback
(lines 416-429 and 450-464): a candidate key is printed and recorded only
if it is not already in the set. -/
def dedupEmit : List String → List String → List String
  | _, [] => []
  | s, k :: ks => if s.contains k then dedupEmit s ks else k :: dedupEmit (k :: s) ks

/-- The candidate keys submitted to the check-then-add discipline, in
execution order: first the machine hostname (printed synchronously, and
skipped when `os.hostname()` yields an empty or failed answer), then the
hostnames of each reverse-DNS callback in completion order. -/
def gatedCandidates (hostName : Option String) (dns : List (String × List String)) (port : Nat) : List String :=
  (match hostName with
   | some h => if h.isEmpty then [] else [urlKey h port]
   | none => []) ++
  ((dns.map (fun r => r.2.map (fun h => urlKey h port))).flatten)

/-- The full sequence of host:port keys printed by one run of the
all-interfaces startup report, given the interface list, the reverse-DNS
results in completion order, the machine hostname and the port. -/
def startupRun (interfaces : List (String × List Iface)) (dns : List (String × List String))
    (hostName : Option String) (port : Nat) (showIPv6 : Bool) : List String :=
  (syncPhase interfaces port showIPv6).1 ++
    dedupEmit (syncPhase interfaces port showIPv6).2 (gatedCandidates hostName dns port)

/-- No recognized command token appears in the argument list (the condition
under which `parseArgs` reaches its plain-run tail). -/
def noCommandTokens (args : List String) : Bool :=
  !(args.contains "--help" || args.contains "-h" || args.contains "--version" ||
    args.contains "-v" || args.contains "uninstall" || args.contains "install")

/-! ## Generic list lemmas -/

theorem tw_mem {α : Type} (p : α → Bool) (l : List α) : ∀ a ∈ l.takeWhile p, p a = true := by
  induction l with
  | nil => intro a h; simp [List.takeWhile] at h
  | cons x xs ih =>
    intro a h
    rw [List.takeWhile_cons] at h
    by_cases hx : p x = true
    · rw [if_pos hx] at h
      rcases List.mem_cons.mp h with h1 | h2
      · exact h1 ▸ hx
      · exact ih a h2
    · rw [if_neg hx] at h
      exact absurd h (List.not_mem_nil a)

theorem tw_all {α : Type} (p : α → Bool) (l : List α) (h : ∀ a ∈ l, p a = true) :
    l.takeWhile p = l := by
  induction l with
  | nil => rfl
  | cons x xs ih =>
    rw [List.takeWhile_cons, if_pos (h x (List.mem_cons_self x xs))]
    rw [ih (fun a ha => h a (List.mem_cons_of_mem x ha))]

theorem dw_nil {α : Type} (p : α → Bool) (l : List α) (h : ∀ a ∈ l, p a = true) :
    l.dropWhile p = [] := by
  induction l with
  | nil => rfl
  | cons x xs ih =>
    rw [List.dropWhile_cons, if_pos (h x (List.mem_cons_self x xs))]
    exact ih (fun a ha => h a (List.mem_cons_of_mem x ha))

theorem tw_stop {α : Type} (p : α → Bool) (l₁ : List α) (x : α) (l₂ : List α)
    (h : ∀ a ∈ l₁, p a = true) (hx : p x = false) :
    (l₁ ++ x :: l₂).takeWhile p = l₁ := by
  induction l₁ with
  | nil =>
    simp only [List.nil_append, List.takeWhile_cons]
    rw [if_neg (by simp [hx])]
  | cons y ys ih =>
    simp only [List.cons_append, List.takeWhile_cons]
    rw [if_pos (h y (List.mem_cons_self y ys))]
    rw [ih (fun a ha => h a (List.mem_cons_of_mem y ha))]

theorem dw_stop {α : Type} (p : α → Bool) (l₁ : List α) (x : α) (l₂ : List α)
    (h : ∀ a ∈ l₁, p a = true) (hx : p x = false) :
    (l₁ ++ x :: l₂).dropWhile p = x :: l₂ := by
  induction l₁ with
  | nil =>
    simp only [List.nil_append, List.dropWhile_cons]
    rw [if_neg (by simp [hx])]
  | cons y ys ih =>
    simp only [List.cons_append, List.dropWhile_cons]
    rw [if_pos (h y (List.mem_cons_self y ys))]
    exact ih (fun a ha => h a (List.mem_cons_of_mem y ha))

/-! ## Digit and numeral lemmas -/

theorem digitChar_spec (m : Nat) :
    (digitChar m).isDigit = true ∧ (digitChar m).isWhitespace = false ∧
    ((digitChar m) != '+') = true ∧ ((digitChar m) != '-') = true ∧
    ((digitChar m) != '=') = true ∧ ((digitChar m) != '.') = true := by
  unfold digitChar
  split <;> exact (by decide)

theorem digitChar_toNat (m : Nat) (h : m < 10) : (digitChar m).toNat = 48 + m := by
  interval_cases m <;> decide

theorem decCharsAux_fuel : ∀ (f₁ f₂ n : Nat), n < f₁ → n < f₂ →
    decCharsAux f₁ n = decCharsAux f₂ n := by
  intro f₁
  induction f₁ with
  | zero => intro f₂ n h1; omega
  | succ f ih =>
    intro f₂ n h1 h2
    cases f₂ with
    | zero => omega
    | succ f' =>
      rw [decCharsAux, decCharsAux]
      by_cases h10 : n < 10
      · rw [if_pos h10, if_pos h10]
      · rw [if_neg h10, if_neg h10]
        have hd : n / 10 < n := Nat.div_lt_self (by omega) (by omega)
        rw [ih f' (n / 10) (by omega) (by omega)]

theorem decChars_rec (n : Nat) (h10 : ¬n < 10) :
    decChars n = decChars (n / 10) ++ [digitChar (n % 10)] := by
  unfold decChars
  rw [decCharsAux, if_neg h10]
  rw [decCharsAux_fuel n (n / 10 + 1) (n / 10)
    (Nat.div_lt_self (by omega) (by omega)) (by omega)]

theorem decChars_props (n : Nat) :
    decChars n ≠ [] ∧ ∀ c ∈ decChars n,
      c.isDigit = true ∧ c.isWhitespace = false ∧ (c != '+') = true ∧
      (c != '-') = true ∧ (c != '=') = true := by
  induction n using Nat.strong_induction_on with
  | _ n ih =>
    by_cases h10 : n < 10
    · rw [show decChars n = [digitChar n] by unfold decChars; rw [decCharsAux, if_pos h10]]
      refine ⟨by simp, ?_⟩
      intro c hc
      rw [List.mem_singleton] at hc
      subst hc
      exact ⟨(digitChar_spec n).1, (digitChar_spec n).2.1, (digitChar_spec n).2.2.1,
        (digitChar_spec n).2.2.2.1, (digitChar_spec n).2.2.2.2.1⟩
    · rw [decChars_rec n h10]
      have hrec := ih (n / 10) (Nat.div_lt_self (by omega) (by omega))
      refine ⟨by simp [hrec.1], ?_⟩
      intro c hc
      rcases List.mem_append.mp hc with h1 | h2
      · exact hrec.2 c h1
      · rw [List.mem_singleton] at h2
        subst h2
        exact ⟨(digitChar_spec (n % 10)).1, (digitChar_spec (n % 10)).2.1,
          (digitChar_spec (n % 10)).2.2.1, (digitChar_spec (n % 10)).2.2.2.1,
          (digitChar_spec (n % 10)).2.2.2.2.1⟩

theorem digitsValN_snoc (l : List Char) (c : Char) :
    digitsValN (l ++ [c]) = digitsValN l * 10 + (c.toNat - 48) := by
  simp [digitsValN, List.foldl_append]

theorem digitsValN_decChars (n : Nat) : digitsValN (decChars n) = n := by
  induction n using Nat.strong_induction_on with
  | _ n ih =>
    by_cases h10 : n < 10
    · rw [show decChars n = [digitChar n] by unfold decChars; rw [decCharsAux, if_pos h10]]
      simp [digitsValN, digitChar_toNat n h10]
    · rw [decChars_rec n h10]
      rw [digitsValN_snoc, ih (n / 10) (Nat.div_lt_self (by omega) (by omega))]
      rw [digitChar_toNat (n % 10) (Nat.mod_lt n (by omega))]
      omega

theorem jsParseInt_decStr (n : Nat) : jsParseInt (decStr n) = some (n : Int) := by
  have hp := decChars_props n
  obtain ⟨c, r, hcr⟩ := List.exists_cons_of_ne_nil hp.1
  have hcmem : c ∈ decChars n := by rw [hcr]; exact List.mem_cons_self c r
  have hc := hp.2 c hcmem
  have hdata : (decStr n).data = decChars n := rfl
  have hdw : (decChars n).dropWhile Char.isWhitespace = decChars n := by
    rw [hcr, List.dropWhile_cons, if_neg (by simp [hc.2.1])]
  rw [jsParseInt, hdata, hdw, hcr]
  have hplus : c ≠ '+' := by
    intro e; rw [e] at hc; exact absurd hc.2.2.1 (by decide)
  have hminus : c ≠ '-' := by
    intro e; rw [e] at hc; exact absurd hc.2.2.2.1 (by decide)
  rw [jsParseIntCore]
  simp only [if_neg hplus, if_neg hminus]
  have htw : (c :: r).takeWhile Char.isDigit = c :: r := by
    rw [← hcr]
    exact tw_all _ _ (fun a ha => (hp.2 a ha).1)
  rw [htw]
  rw [if_neg (by simp)]
  rw [← hcr, digitsValN_decChars]
  simp

/-! ## Token lemmas for parseArgs -/

theorem isPrefixOf_append (l t : List Char) : l.isPrefixOf (l ++ t) = true := by
  induction l with
  | nil => simp [List.isPrefixOf]
  | cons x xs ih => simp [List.isPrefixOf, ih]

theorem ssw_append (pre t : String) : strStartsWith (pre ++ t) pre = true := by
  unfold strStartsWith
  have hd : (pre ++ t).data = pre.data ++ t.data := rfl
  rw [hd]
  exact isPrefixOf_append _ _

theorem ssw_ne (t pre s : String) (h : strStartsWith t pre = true)
    (hs : strStartsWith s pre = false) : t ≠ s := by
  intro e
  rw [e, hs] at h
  cases h

theorem contains_singleton (t x : String) (h : x ≠ t) : [t].contains x = false := by
  simp [List.contains, h]

/-! ## Claim C1 -/

/-- C1: every GET request to the route `/` is answered with status 200,
a plain-text content type, and a body consisting of the package name, the
character `@`, and the package version, the name and version being the
metadata values read once at startup and baked into the handler. -/
theorem c1_get_root_returns_name_at_version (pkg : Pkg) :
    handleRequest pkg Method.GET "/" =
      some { status := 200, contentType := "text/plain; charset=UTF-8",
             body := pkg.name ++ "@" ++ pkg.version } := rfl

/-! ## Claim C5 -/

/-- C5: `shouldShowIPv6` returns false whenever IPv6 is disabled, false
whenever the bind address is `0.0.0.0` or any literal IPv4 address, and
true otherwise; in particular it is true for `::` and `::1` when IPv6 is
enabled. -/
theorem c5_should_show_ipv6 (bind : String) (enabled : Bool) :
    (enabled = false → shouldShowIPv6 bind enabled = false) ∧
    (bind = "0.0.0.0" ∨ isIPv4Address bind = true → shouldShowIPv6 bind enabled = false) ∧
    (enabled = true → isIPv4Address bind = false → shouldShowIPv6 bind enabled = true) ∧
    shouldShowIPv6 "::" true = true ∧ shouldShowIPv6 "::1" true = true := by
  refine ⟨?_, ?_, ?_, by decide, by decide⟩
  · intro h; subst h; rfl
  · rintro (h | h)
    · subst h; simp [shouldShowIPv6]
    · unfold shouldShowIPv6
      by_cases he : enabled
      · subst he
        by_cases h0 : bind = "0.0.0.0"
        · simp [h0]
        · simp [h0, h]
      · simp at he; subst he; rfl
  · intro he h4
    subst he
    have h0 : bind ≠ "0.0.0.0" := by
      intro e; subst e; exact absurd h4 (by decide)
    simp [shouldShowIPv6, h0, h4]

/-- Witness for C5 at a concrete dotted-quad bind address. -/
theorem c5_should_show_ipv6_witness : shouldShowIPv6 "10.1.2.3" true = false :=
  (c5_should_show_ipv6 "10.1.2.3" true).2.1 (Or.inr (by decide))

/-! ## Claim C6 -/

/-- C6: `isPortInUse` resolves to true exactly when the throwaway bind
attempt fails with `EADDRINUSE`; a successful bind resolves to false with
the throwaway listener closed, and any other bind failure also resolves to
false.  In no case is a listener left open. -/
theorem c6_is_port_in_use (port : Nat) (host : String) (o : BindOutcome) :
    ((isPortInUse port host o).inUse = true ↔ o = BindOutcome.error "EADDRINUSE") ∧
    (o = BindOutcome.listening → isPortInUse port host o = { inUse := false, leftOpen := false }) ∧
    (∀ code, code ≠ "EADDRINUSE" → o = BindOutcome.error code → (isPortInUse port host o).inUse = false) ∧
    (isPortInUse port host o).leftOpen = false := by
  refine ⟨?_, ?_, ?_, ?_⟩
  · cases o with
    | listening => simp [isPortInUse]
    | error code => simp [isPortInUse]
  · intro h; subst h; rfl
  · intro code hc h
    subst h
    simp [isPortInUse, hc]
  · cases o <;> rfl

/-- Witness for C6: an `EADDRINUSE` failure reports the port as in use. -/
theorem c6_is_port_in_use_witness :
    (isPortInUse 8080 "127.0.0.1" (BindOutcome.error "EADDRINUSE")).inUse = true :=
  (c6_is_port_in_use 8080 "127.0.0.1" (BindOutcome.error "EADDRINUSE")).1.mpr rfl

/-! ## Claim C7 -/

/-- C7: on every platform other than win32, linux and darwin (the platforms
the switch recognises), both the install and the uninstall dispatch print a
"not supported" message and exit the process with code 1.  (On linux and
darwin the source instead prints a "not yet implemented" notice and returns,
after which the command exits 0.) -/
theorem c7_unsupported_platform_exit (platform : String)
    (h1 : platform ≠ "win32") (h2 : platform ≠ "linux") (h3 : platform ≠ "darwin") :
    installService platform =
      ServiceAction.exitWithMsg 1 ("Service installation not supported on " ++ platform ++ " platform.") ∧
    uninstallService platform =
      ServiceAction.exitWithMsg 1 ("Service uninstallation not supported on " ++ platform ++ " platform.") := by
  constructor
  · unfold installService
    rw [if_neg h1, if_neg h2, if_neg h3]
  · unfold uninstallService
    rw [if_neg h1, if_neg h2, if_neg h3]

/-- Witness for C7 at the concrete platform string freebsd. -/
theorem c7_unsupported_platform_exit_witness :
    installService "freebsd" =
      ServiceAction.exitWithMsg 1 ("Service installation not supported on " ++ "freebsd" ++ " platform.") ∧
    uninstallService "freebsd" =
      ServiceAction.exitWithMsg 1 ("Service uninstallation not supported on " ++ "freebsd" ++ " platform.") :=
  c7_unsupported_platform_exit "freebsd" (by decide) (by decide) (by decide)

/-! ## Claim C8 -/

/-- C8: `parseArgs` recognizes commands in priority order, by membership and
regardless of token position: `--help`/`-h` first, then `--version`/`-v`,
then `uninstall`, then `install`, and only then falls through to plain-run
parsing. -/
theorem c8_command_priority (args : List String) :
    ((args.contains "--help" || args.contains "-h") = true → parseArgs args = ParseResult.help) ∧
    ((args.contains "--help" || args.contains "-h") = false →
      (args.contains "--version" || args.contains "-v") = true →
      parseArgs args = ParseResult.version) ∧
    ((args.contains "--help" || args.contains "-h") = false →
      (args.contains "--version" || args.contains "-v") = false →
      args.contains "uninstall" = true → parseArgs args = ParseResult.uninstall) ∧
    ((args.contains "--help" || args.contains "-h") = false →
      (args.contains "--version" || args.contains "-v") = false →
      args.contains "uninstall" = false → args.contains "install" = true →
      parseArgs args = installParse args) ∧
    ((args.contains "--help" || args.contains "-h") = false →
      (args.contains "--version" || args.contains "-v") = false →
      args.contains "uninstall" = false → args.contains "install" = false →
      parseArgs args = plainParse args) := by
  refine ⟨?_, ?_, ?_, ?_, ?_⟩
  · intro h; unfold parseArgs; rw [h]; rfl
  · intro h1 h2; unfold parseArgs; rw [h1, h2]; rfl
  · intro h1 h2 h3; unfold parseArgs; rw [h1, h2, h3]; rfl
  · intro h1 h2 h3 h4; unfold parseArgs; rw [h1, h2, h3, h4]; rfl
  · intro h1 h2 h3 h4; unfold parseArgs; rw [h1, h2, h3, h4]; rfl

/-- Witness for C8: with both `install` and `--version` present, the earlier
priority (`--version`) wins regardless of token position. -/
theorem c8_command_priority_witness :
    parseArgs ["install", "--version"] = ParseResult.version :=
  (c8_command_priority ["install", "--version"]).2.1 (by decide) (by decide)

/-! ## Claim C2: counterexample -/

/-- C2 counterexample: the value `80abc` is not an integer in [1, 65535]
(it is a non-numeric string), yet `--port=80abc` does not fail validation:
JavaScript `parseInt` accepts the leading digit prefix and the program
starts with port 80. -/
theorem c2_port_parsing_counterexample :
    parseArgs ["--port=80abc"] = ParseResult.run 80 "0.0.0.0" := by decide

/-! ## Claim C3: counterexample -/

/-- C3 counterexample: the token `--bind=a=b` is present (ADDR = `a=b`),
but the parsed bind is `a`, not `a=b`: `split('=')[1]` truncates the value
at its next `=`. -/
theorem c3_bind_resolution_counterexample :
    parseArgs ["--bind=a=b"] = ParseResult.run 64001 "a" := by decide

/-! ## Claim C4: counterexample -/

/-- C4 counterexample: with every probe reporting in use and the scan
started at the default port 64001, `findAvailablePort` returns 64011
(start + 10), not the 8080 the claim requires: after ten probes the cursor
has always advanced to `startPort + 10`, so the `port === startPort` test
at src/index.ts line 283 never selects the 8080 branch. -/
theorem c4_find_available_port_counterexample :
    findAvailablePort allBusyEnv 64001 "0.0.0.0" = 64011 ∧
    findAvailablePort allBusyEnv 64001 "0.0.0.0" ≠ 8080 := by decide

/-! ## Claim C9: counterexample -/

/-- C9 counterexample: two interfaces reporting the same non-internal IPv4
address make the startup reporter print the key `1.2.3.4:64001` twice in a
single run: the direct interface prints add to the `processedUrls` set but
never check it. -/
theorem c9_dedup_counterexample :
    (startupRun [("eth0", [⟨"1.2.3.4", "IPv4", false, none⟩]),
                 ("eth1", [⟨"1.2.3.4", "IPv4", false, none⟩])]
        [] none 64001 false).count "1.2.3.4:64001" = 2 := by decide

/-! ## Claim C4: loop lemmas and amended claim -/

theorem loop_all_busy (env : Nat → BindOutcome) (host : String) (sp : Nat) :
    ∀ (fuel port : Nat),
      (∀ i, i < fuel → (isPortInUse (port + i) host (env (port + i))).inUse = true) →
      findAvailablePortLoop env host sp fuel port =
        if port + fuel = sp then 8080 else sp + 10 := by
  intro fuel
  induction fuel with
  | zero =>
    intro port _
    simp [findAvailablePortLoop]
  | succ f ih =>
    intro port h
    have h0 : (isPortInUse port host (env port)).inUse = true := by
      have := h 0 (by omega)
      simpa using this
    rw [findAvailablePortLoop, if_pos h0]
    have hsh : ∀ i, i < f → (isPortInUse (port + 1 + i) host (env (port + 1 + i))).inUse = true := by
      intro i hi
      have := h (i + 1) (by omega)
      have he : port + (i + 1) = port + 1 + i := by omega
      rwa [he] at this
    rw [ih (port + 1) hsh]
    have : port + 1 + f = port + (f + 1) := by omega
    rw [this]

theorem loop_first_free (env : Nat → BindOutcome) (host : String) (sp : Nat) :
    ∀ (fuel i port : Nat), i < fuel →
      (isPortInUse (port + i) host (env (port + i))).inUse = false →
      (∀ j, j < i → (isPortInUse (port + j) host (env (port + j))).inUse = true) →
      findAvailablePortLoop env host sp fuel port = port + i := by
  intro fuel
  induction fuel with
  | zero => intro i port hi; omega
  | succ f ih =>
    intro i port hi hfree hbusy
    cases i with
    | zero =>
      have h0 : (isPortInUse port host (env port)).inUse = false := by simpa using hfree
      rw [findAvailablePortLoop, if_neg (by simp [h0])]
      omega
    | succ i' =>
      have h0 : (isPortInUse port host (env port)).inUse = true := by
        have := hbusy 0 (by omega)
        simpa using this
      rw [findAvailablePortLoop, if_pos h0]
      have he : ∀ k, port + 1 + k = port + (k + 1) := by intro k; omega
      have hfree' : (isPortInUse (port + 1 + i') host (env (port + 1 + i'))).inUse = false := by
        rw [he i']; exact hfree
      have hbusy' : ∀ j, j < i' → (isPortInUse (port + 1 + j) host (env (port + 1 + j))).inUse = true := by
        intro j hj
        rw [he j]
        exact hbusy (j + 1) (by omega)
      rw [ih i' (port + 1) (by omega) hfree' hbusy']
      omega

/-- C4 (amended): `findAvailablePort` probes `start, start+1, ...` for up
to 10 attempts and returns the first port whose probe reports free; if all
10 probes report in use it returns `start + 10` unconditionally — the 8080
fallback in the source compares the advanced cursor (always `start + 10`)
with `start` and is therefore unreachable. -/
theorem c4_find_available_port_amended (env : Nat → BindOutcome) (host : String) (start : Nat) :
    ((∀ i, i < 10 → (isPortInUse (start + i) host (env (start + i))).inUse = true) →
      findAvailablePort env start host = start + 10) ∧
    (∀ i, i < 10 → (isPortInUse (start + i) host (env (start + i))).inUse = false →
      (∀ j, j < i → (isPortInUse (start + j) host (env (start + j))).inUse = true) →
      findAvailablePort env start host = start + i) := by
  constructor
  · intro h
    unfold findAvailablePort
    rw [loop_all_busy env host start 10 start h]
    rw [if_neg (by omega)]
  · intro i hi hfree hbusy
    unfold findAvailablePort
    exact loop_first_free env host start 10 i start hi hfree hbusy

/-- Witness for the amended C4: with only port 5 free and the scan started
at 3, the two busy probes are skipped and 5 is returned. -/
theorem c4_find_available_port_witness : findAvailablePort freeAtFiveEnv 3 "h" = 3 + 2 :=
  (c4_find_available_port_amended freeAtFiveEnv "h" 3).2 2 (by decide) (by decide) (by decide)

/-! ## Claim C9: dedup lemmas and amended claim -/

theorem dedupEmit_not_in_set : ∀ (ks s : List String) (k : String),
    k ∈ dedupEmit s ks → s.contains k = false := by
  intro ks
  induction ks with
  | nil => intro s k h; simp [dedupEmit] at h
  | cons k' ks' ih =>
    intro s k h
    rw [dedupEmit] at h
    by_cases hc : s.contains k' = true
    · rw [if_pos hc] at h
      exact ih s k h
    · rw [if_neg hc] at h
      rcases List.mem_cons.mp h with h1 | h2
      · subst h1
        simpa using hc
      · have := ih (k' :: s) k h2
        simp only [List.contains_cons] at this
        simp only [Bool.or_eq_false_iff] at this
        exact this.2

theorem dedupEmit_nodup : ∀ (ks s : List String), (dedupEmit s ks).Nodup := by
  intro ks
  induction ks with
  | nil => intro s; simp [dedupEmit]
  | cons k' ks' ih =>
    intro s
    rw [dedupEmit]
    by_cases hc : s.contains k' = true
    · rw [if_pos hc]; exact ih s
    · rw [if_neg hc]
      refine List.nodup_cons.mpr ⟨?_, ih (k' :: s)⟩
      intro hmem
      have := dedupEmit_not_in_set ks' (k' :: s) k' hmem
      simp at this

/-- C9 (amended): within a single startup report, only the reverse-DNS
host names and the machine hostname are deduplicated via the set of
formatted host:port keys: those gated prints are pairwise distinct and
never repeat a key that the synchronous phase recorded.  Direct
interface/loopback URLs are recorded in the set but printed without
checking it, so the same host:port can be printed more than once when two
interfaces report the same address. -/
theorem c9_dedup_amended (interfaces : List (String × List Iface))
    (dns : List (String × List String)) (hostName : Option String)
    (port : Nat) (showIPv6 : Bool) :
    startupRun interfaces dns hostName port showIPv6 =
      (syncPhase interfaces port showIPv6).1 ++
        dedupEmit (syncPhase interfaces port showIPv6).2 (gatedCandidates hostName dns port) ∧
    (dedupEmit (syncPhase interfaces port showIPv6).2 (gatedCandidates hostName dns port)).Nodup ∧
    (∀ k ∈ dedupEmit (syncPhase interfaces port showIPv6).2 (gatedCandidates hostName dns port),
      (syncPhase interfaces port showIPv6).2.contains k = false) := by
  refine ⟨rfl, dedupEmit_nodup _ _, ?_⟩
  intro k hk
  exact dedupEmit_not_in_set _ _ k hk

/-- Witness for the amended C9: a DNS answer repeating an already printed
interface address is suppressed while a new name is printed once. -/
theorem c9_dedup_witness :
    startupRun [("eth0", [⟨"1.2.3.4", "IPv4", false, none⟩])]
        [("1.2.3.4", ["myhost.lan", "1.2.3.4"])] (some "myhost.lan") 64001 false =
      ["localhost:64001", "1.2.3.4:64001", "myhost.lan:64001"] := by
  have h := c9_dedup_amended [("eth0", [⟨"1.2.3.4", "IPv4", false, none⟩])]
    [("1.2.3.4", ["myhost.lan", "1.2.3.4"])] (some "myhost.lan") 64001 false
  rw [h.1]
  decide

/-! ## Token lemmas and parseArgs inversion -/

theorem isPrefixOf_ex (l₁ l₂ : List Char) (h : l₁.isPrefixOf l₂ = true) :
    ∃ r, l₂ = l₁ ++ r := by
  induction l₁ generalizing l₂ with
  | nil => exact ⟨l₂, rfl⟩
  | cons x xs ih =>
    cases l₂ with
    | nil => simp [List.isPrefixOf] at h
    | cons y ys =>
      simp only [List.isPrefixOf, Bool.and_eq_true, beq_iff_eq] at h
      obtain ⟨r, hr⟩ := ih ys h.2
      exact ⟨r, by rw [h.1, hr]; rfl⟩

theorem ssw_port_not_bind (t : String) (h : strStartsWith t "--port=" = true) :
    strStartsWith t "--bind=" = false := by
  unfold strStartsWith at h ⊢
  obtain ⟨r, hr⟩ := isPrefixOf_ex _ _ h
  rw [hr]
  show List.isPrefixOf ('-' :: '-' :: 'b' :: 'i' :: 'n' :: 'd' :: '=' :: [])
    (('-' :: '-' :: 'p' :: 'o' :: 'r' :: 't' :: '=' :: []) ++ r) = false
  simp [List.isPrefixOf]

theorem run_inv (args : List String) (p : Int) (b : String)
    (h : parseArgs args = ParseResult.run p b) :
    portOf args = some p ∧ portValid (some p) = true ∧ b = bindOf args := by
  unfold parseArgs at h
  split at h
  · simp at h
  · split at h
    · simp at h
    · split at h
      · simp at h
      · split at h
        · unfold installParse at h
          split at h
          · split at h
            · simp at h
            · simp at h
          · simp at h
        · unfold plainParse at h
          split at h
          · rename_i p' hp'
            split at h
            · rename_i hv
              injection h with h1 h2
              subst h1
              exact ⟨hp', hv, h2.symm⟩
            · simp at h
          · simp at h

/-! ## Claim C2: amended claim -/

/-- C2 (amended): `--port=N` parses to exactly N for every integer N in
[1, 65535]; a successful plain run always carries a port in [1, 65535];
and whenever `parseInt` of the port value is NaN or out of range (and no
command token short-circuits parsing), startup aborts through the
validation error, which is printed as `Error: ...` with exit code 1.
What the original claim misses is that `parseInt` accepts any value with a
valid leading integer prefix (for example `--port=80abc` parses to 80), so
not every non-numeric string fails. -/
theorem c2_port_parsing_amended :
    (∀ n : Nat, 1 ≤ n → n ≤ 65535 →
      parseArgs ["--port=" ++ decStr n] = ParseResult.run n "0.0.0.0") ∧
    (∀ (args : List String) (p : Int) (b : String),
      parseArgs args = ParseResult.run p b → 1 ≤ p ∧ p ≤ 65535) ∧
    (∀ args : List String, noCommandTokens args = true → portValid (portOf args) = false →
      parseArgs args = ParseResult.error portErrMsg ∧
      errorExit (parseArgs args) = some (1, "Error: " ++ portErrMsg)) := by
  refine ⟨?_, ?_, ?_⟩
  · intro n h1 h2
    have hssw : strStartsWith ("--port=" ++ decStr n) "--port=" = true := ssw_append _ _
    have hne : ∀ s : String, strStartsWith s "--port=" = false → ("--port=" ++ decStr n) ≠ s :=
      fun s hs => ssw_ne _ _ s hssw hs
    have cHelp : ["--port=" ++ decStr n].contains "--help" = false :=
      contains_singleton _ _ (Ne.symm (hne _ (by decide)))
    have cH : ["--port=" ++ decStr n].contains "-h" = false :=
      contains_singleton _ _ (Ne.symm (hne _ (by decide)))
    have cVersion : ["--port=" ++ decStr n].contains "--version" = false :=
      contains_singleton _ _ (Ne.symm (hne _ (by decide)))
    have cV : ["--port=" ++ decStr n].contains "-v" = false :=
      contains_singleton _ _ (Ne.symm (hne _ (by decide)))
    have cUn : ["--port=" ++ decStr n].contains "uninstall" = false :=
      contains_singleton _ _ (Ne.symm (hne _ (by decide)))
    have cIn : ["--port=" ++ decStr n].contains "install" = false :=
      contains_singleton _ _ (Ne.symm (hne _ (by decide)))
    have cIp : ["--port=" ++ decStr n].contains "--ipv6" = false :=
      contains_singleton _ _ (Ne.symm (hne _ (by decide)))
    have hfind : ["--port=" ++ decStr n].find? (fun a => strStartsWith a "--port=") =
        some ("--port=" ++ decStr n) := by
      simp [List.find?, hssw]
    have hbfind : ["--port=" ++ decStr n].find? (fun a => strStartsWith a "--bind=") = none := by
      simp [List.find?, ssw_port_not_bind _ hssw]
    have hav : argValue ("--port=" ++ decStr n) = decStr n := by
      unfold argValue
      have hdata : ("--port=" ++ decStr n).data =
          ('-' :: '-' :: 'p' :: 'o' :: 'r' :: 't' :: []) ++ '=' :: (decStr n).data := rfl
      rw [hdata, dw_stop _ _ _ _ (by decide) (by decide)]
      have htail : (decStr n).data = decChars n := rfl
      rw [List.drop_one, List.tail_cons, htail,
        tw_all _ _ (fun a ha => ((decChars_props n).2 a ha).2.2.2.2)]
      rfl
    have hport : portOf ["--port=" ++ decStr n] = some (n : Int) := by
      unfold portOf
      rw [hfind]
      show jsParseInt (argValue ("--port=" ++ decStr n)) = some (n : Int)
      rw [hav, jsParseInt_decStr]
    have hbind : bindOf ["--port=" ++ decStr n] = "0.0.0.0" := by
      unfold bindOf
      rw [hbfind, cIp]
      simp
    have hv : portValid (some (n : Int)) = true := by
      simp only [portValid, Bool.and_eq_true, decide_eq_true_eq]
      constructor
      · exact_mod_cast h1
      · exact_mod_cast h2
    unfold parseArgs
    rw [cHelp, cH, cVersion, cV, cUn, cIn]
    simp only [Bool.or_self, Bool.false_eq_true, if_false]
    unfold plainParse
    simp [hport, hv, hbind]
  · intro args p b h
    have hv := (run_inv args p b h).2.1
    simp only [portValid, Bool.and_eq_true, decide_eq_true_eq] at hv
    exact hv
  · intro args hn hv
    simp only [noCommandTokens, Bool.not_eq_eq_eq_not, Bool.not_true, Bool.or_eq_false_iff] at hn
    obtain ⟨⟨⟨⟨⟨a1, a2⟩, a3⟩, a4⟩, a5⟩, a6⟩ := hn
    have hmain : parseArgs args = ParseResult.error portErrMsg := by
      unfold parseArgs
      rw [a1, a2, a3, a4, a5, a6]
      simp only [Bool.or_self, Bool.false_eq_true, if_false]
      unfold plainParse
      cases hp : portOf args with
      | none => rfl
      | some p =>
        rw [hp] at hv
        simp [hv]
    exact ⟨hmain, by rw [hmain]; rfl⟩

/-- Witness for the amended C2: port 8080 round-trips, `--port=0` and a
non-numeric `--port=abc` abort with the printed validation error. -/
theorem c2_port_parsing_witness :
    parseArgs ["--port=" ++ decStr 8080] = ParseResult.run 8080 "0.0.0.0" ∧
    decStr 8080 = "8080" ∧
    errorExit (parseArgs ["--port=0"]) = some (1, "Error: " ++ portErrMsg) ∧
    errorExit (parseArgs ["--port=abc"]) = some (1, "Error: " ++ portErrMsg) :=
  ⟨c2_port_parsing_amended.1 8080 (by decide) (by decide), by decide,
   (c2_port_parsing_amended.2.2 ["--port=0"] (by decide) (by decide)).2,
   (c2_port_parsing_amended.2.2 ["--port=abc"] (by decide) (by decide)).2⟩

/-! ## Claim C3: amended claim -/

/-- C3 (amended): the parsed bind is taken from the first token starting
with `--bind=`, and equals the ADDR of that token truncated at its first `=`
(JavaScript `split('=')[1]`); when no such token exists, the bind is `::`
when `--ipv6` is present and `0.0.0.0` otherwise; and every successful
plain run carries exactly this bind value.  The original claim fails when
ADDR itself contains `=` or when several `--bind=` tokens disagree. -/
theorem c3_bind_resolution_amended :
    (∀ (args : List String) (rest : String),
      args.find? (fun a => strStartsWith a "--bind=") = some ("--bind=" ++ rest) →
      bindOf args = String.mk (rest.data.takeWhile (fun c => c != '='))) ∧
    (∀ args : List String,
      args.find? (fun a => strStartsWith a "--bind=") = none →
      bindOf args = if args.contains "--ipv6" then "::" else "0.0.0.0") ∧
    (∀ (args : List String) (p : Int) (b : String),
      parseArgs args = ParseResult.run p b → b = bindOf args) := by
  refine ⟨?_, ?_, ?_⟩
  · intro args rest h
    unfold bindOf
    rw [h]
    show argValue ("--bind=" ++ rest) = String.mk (rest.data.takeWhile (fun c => c != '='))
    unfold argValue
    have hdata : ("--bind=" ++ rest).data =
        ('-' :: '-' :: 'b' :: 'i' :: 'n' :: 'd' :: []) ++ '=' :: rest.data := rfl
    rw [hdata, dw_stop _ _ _ _ (by decide) (by decide), List.drop_one, List.tail_cons]
  · intro args h
    unfold bindOf
    rw [h]
  · intro args p b h
    exact (run_inv args p b h).2.2

/-- Witness for the amended C3: a single well-formed `--bind=` token yields
its address, and without one the `--ipv6` flag selects the default. -/
theorem c3_bind_resolution_witness :
    bindOf ["--bind=10.0.0.7"] = String.mk ("10.0.0.7".data.takeWhile (fun c => c != '=')) ∧
    bindOf ["--ipv6"] = (if ["--ipv6"].contains "--ipv6" then "::" else "0.0.0.0") ∧
    String.mk ("10.0.0.7".data.takeWhile (fun c => c != '=')) = "10.0.0.7" :=
  ⟨c3_bind_resolution_amended.1 ["--bind=10.0.0.7"] "10.0.0.7" (by decide),
   c3_bind_resolution_amended.2.1 ["--ipv6"] (by decide),
   by decide⟩

/-! ## Claim C10: regex characterisation -/

theorem isEmpty_eq (l : List Char) : l.isEmpty = true ↔ l = [] := by
  cases l <;> simp

theorem ipv4Run_iff : ∀ (k : Nat) (cs : List Char), ipv4Run cs k = true ↔ IPv4Groups cs k := by
  intro k
  induction k with
  | zero =>
    intro cs
    constructor
    · intro h
      rw [ipv4Run] at h
      by_cases hc : ((cs.takeWhile Char.isDigit).isEmpty ||
          decide (3 < (cs.takeWhile Char.isDigit).length)) = true
      · rw [if_pos hc] at h; cases h
      · rw [if_neg hc] at h
        simp only [Bool.or_eq_true, not_or, isEmpty_eq, decide_eq_true_eq] at hc
        have h2 : (cs.dropWhile Char.isDigit).isEmpty = true := h
        rw [isEmpty_eq] at h2
        have hta : cs.takeWhile Char.isDigit ++ cs.dropWhile Char.isDigit = cs :=
          List.takeWhile_append_dropWhile Char.isDigit cs
        rw [h2, List.append_nil] at hta
        refine ⟨[cs.takeWhile Char.isDigit], by simp, ?_, ?_⟩
        · show cs = joinDots [cs.takeWhile Char.isDigit]
          have hj : joinDots [cs.takeWhile Char.isDigit] = cs.takeWhile Char.isDigit := rfl
          rw [hj]
          exact hta.symm
        · intro g hg
          rw [List.mem_singleton] at hg
          subst hg
          exact ⟨hc.1, by omega, fun c hcm => tw_mem _ _ c hcm⟩
    · rintro ⟨gs, hlen, hcs, hprops⟩
      obtain ⟨g, rfl⟩ : ∃ g, gs = [g] := by
        cases gs with
        | nil => simp at hlen
        | cons a t =>
          cases t with
          | nil => exact ⟨a, rfl⟩
          | cons b t2 => simp only [List.length_cons, List.length_nil] at hlen; omega
      have hp := hprops g (by simp)
      have hj : joinDots [g] = g := rfl
      rw [hj] at hcs
      rw [hcs]
      rw [ipv4Run]
      have htw : g.takeWhile Char.isDigit = g := tw_all _ _ (fun a ha => hp.2.2 a ha)
      rw [htw]
      rw [if_neg (by
        simp only [Bool.or_eq_true, isEmpty_eq, decide_eq_true_eq, not_or]
        exact ⟨hp.1, by omega⟩)]
      show (g.dropWhile Char.isDigit).isEmpty = true
      rw [dw_nil _ _ (fun a ha => hp.2.2 a ha)]
      rfl
  | succ k' ih =>
    intro cs
    constructor
    · intro h
      rw [ipv4Run] at h
      by_cases hc : ((cs.takeWhile Char.isDigit).isEmpty ||
          decide (3 < (cs.takeWhile Char.isDigit).length)) = true
      · rw [if_pos hc] at h; cases h
      · rw [if_neg hc] at h
        simp only [Bool.or_eq_true, not_or, isEmpty_eq, decide_eq_true_eq] at hc
        cases hdrop : cs.dropWhile Char.isDigit with
        | nil =>
          rw [hdrop] at h
          have h2 : false = true := h
          cases h2
        | cons d cs2 =>
          rw [hdrop] at h
          have h2 : (if d = '.' then ipv4Run cs2 k' else false) = true := h
          by_cases hd : d = '.'
          · rw [if_pos hd] at h2
            subst hd
            obtain ⟨gs', hlen', hcs2, hprops'⟩ := (ih cs2).mp h2
            refine ⟨cs.takeWhile Char.isDigit :: gs', by simp [hlen'], ?_, ?_⟩
            · obtain ⟨g2, t, rfl⟩ : ∃ g2 t, gs' = g2 :: t := by
                cases gs' with
                | nil => simp at hlen'
                | cons a t => exact ⟨a, t, rfl⟩
              have hj : joinDots (cs.takeWhile Char.isDigit :: g2 :: t) =
                  cs.takeWhile Char.isDigit ++ '.' :: joinDots (g2 :: t) := rfl
              rw [hj, ← hcs2, ← hdrop]
              exact (List.takeWhile_append_dropWhile Char.isDigit cs).symm
            · intro g hg
              rcases List.mem_cons.mp hg with h1 | h1
              · subst h1
                exact ⟨hc.1, by omega, fun c hcm => tw_mem _ _ c hcm⟩
              · exact hprops' g h1
          · rw [if_neg hd] at h2
            cases h2
    · rintro ⟨gs, hlen, hcs, hprops⟩
      obtain ⟨g, gs', rfl⟩ : ∃ g gs', gs = g :: gs' := by
        cases gs with
        | nil => simp at hlen
        | cons a t => exact ⟨a, t, rfl⟩
      obtain ⟨g2, t, rfl⟩ : ∃ g2 t, gs' = g2 :: t := by
        cases gs' with
        | nil => simp at hlen
        | cons a t => exact ⟨a, t, rfl⟩
      have hp := hprops g (by simp)
      have hj : joinDots (g :: g2 :: t) = g ++ '.' :: joinDots (g2 :: t) := rfl
      rw [hj] at hcs
      subst hcs
      rw [ipv4Run]
      have htw : (g ++ '.' :: joinDots (g2 :: t)).takeWhile Char.isDigit = g :=
        tw_stop _ _ _ _ (fun a ha => hp.2.2 a ha) (by decide)
      have hdw : (g ++ '.' :: joinDots (g2 :: t)).dropWhile Char.isDigit =
          '.' :: joinDots (g2 :: t) :=
        dw_stop _ _ _ _ (fun a ha => hp.2.2 a ha) (by decide)
      rw [htw, hdw]
      rw [if_neg (by
        simp only [Bool.or_eq_true, isEmpty_eq, decide_eq_true_eq, not_or]
        exact ⟨hp.1, by omega⟩)]
      show (if ('.' : Char) = '.' then ipv4Run (joinDots (g2 :: t)) k' else false) = true
      rw [if_pos rfl]
      refine (ih (joinDots (g2 :: t))).mpr ⟨g2 :: t, ?_, rfl, ?_⟩
      · simp only [List.length_cons] at hlen ⊢
        omega
      · intro g hg
        exact hprops g (List.mem_cons_of_mem _ hg)

theorem strExt (a b : String) (h : a.data = b.data) : a = b := by
  cases a
  cases b
  exact congrArg String.mk h

theorem str_data_append (s t : String) : (s ++ t).data = s.data ++ t.data := rfl

theorem dot_data : ("." : String).data = ['.'] := rfl

/-- C10: `isIPv4Address` returns true exactly for strings of four
dot-separated groups of one to three decimal digits (octet values are not
range-checked, so `999.0.0.1` passes), and false for everything else,
hostnames included; consequently, with IPv6 enabled, `shouldShowIPv6`
returns false for every such dotted quad and true for every other string,
including a colon-free hostname. -/
theorem c10_ipv4_regex :
    (∀ s : String, isIPv4Address s = true ↔
      ∃ g1 g2 g3 g4 : String,
        s = g1 ++ "." ++ g2 ++ "." ++ g3 ++ "." ++ g4 ∧
        ∀ g ∈ [g1, g2, g3, g4],
          1 ≤ g.length ∧ g.length ≤ 3 ∧ ∀ c ∈ g.data, c.isDigit = true) ∧
    isIPv4Address "999.0.0.1" = true ∧
    (∀ s, isIPv4Address s = true → shouldShowIPv6 s true = false) ∧
    (∀ s, isIPv4Address s = false → shouldShowIPv6 s true = true) := by
  refine ⟨?_, by decide, ?_, ?_⟩
  · intro s
    constructor
    · intro h
      obtain ⟨gs, hlen, hcs, hprops⟩ := (ipv4Run_iff 3 s.data).mp h
      obtain ⟨l1, l2, l3, l4, rfl⟩ : ∃ l1 l2 l3 l4, gs = [l1, l2, l3, l4] := by
        cases gs with
        | nil => simp at hlen
        | cons a t =>
          cases t with
          | nil => simp only [List.length_cons, List.length_nil] at hlen; omega
          | cons b t2 =>
            cases t2 with
            | nil => simp only [List.length_cons, List.length_nil] at hlen; omega
            | cons c t3 =>
              cases t3 with
              | nil => simp only [List.length_cons, List.length_nil] at hlen; omega
              | cons d t4 =>
                cases t4 with
                | nil => exact ⟨a, b, c, d, rfl⟩
                | cons e t5 => simp only [List.length_cons, List.length_nil] at hlen; omega
      refine ⟨String.mk l1, String.mk l2, String.mk l3, String.mk l4, ?_, ?_⟩
      · apply strExt
        rw [hcs]
        show joinDots [l1, l2, l3, l4] =
          (String.mk l1 ++ "." ++ String.mk l2 ++ "." ++ String.mk l3 ++ "." ++ String.mk l4).data
        have hjj : joinDots [l1, l2, l3, l4] = l1 ++ '.' :: (l2 ++ '.' :: (l3 ++ '.' :: l4)) := rfl
        rw [hjj]
        simp [str_data_append, dot_data, List.append_assoc]
      · intro g hg
        have hmk : ∀ l : List Char, l ∈ [l1, l2, l3, l4] →
            1 ≤ (String.mk l).length ∧ (String.mk l).length ≤ 3 ∧
            ∀ c ∈ (String.mk l).data, c.isDigit = true := by
          intro l hl
          have hp := hprops l hl
          refine ⟨?_, hp.2.1, hp.2.2⟩
          have : l ≠ [] := hp.1
          cases hll : l with
          | nil => exact absurd hll this
          | cons x xs => show 1 ≤ (x :: xs).length; simp
        simp only [List.mem_cons, List.not_mem_nil, or_false] at hg
        rcases hg with rfl | rfl | rfl | rfl
        · exact hmk l1 (by simp)
        · exact hmk l2 (by simp)
        · exact hmk l3 (by simp)
        · exact hmk l4 (by simp)
    · rintro ⟨g1, g2, g3, g4, hs, hprops⟩
      apply (ipv4Run_iff 3 s.data).mpr
      refine ⟨[g1.data, g2.data, g3.data, g4.data], by simp, ?_, ?_⟩
      · rw [hs]
        show (g1 ++ "." ++ g2 ++ "." ++ g3 ++ "." ++ g4).data =
          joinDots [g1.data, g2.data, g3.data, g4.data]
        have hjj : joinDots [g1.data, g2.data, g3.data, g4.data] =
            g1.data ++ '.' :: (g2.data ++ '.' :: (g3.data ++ '.' :: g4.data)) := rfl
        rw [hjj]
        simp [str_data_append, dot_data, List.append_assoc]
      · intro l hl
        have hstr : ∀ g : String, g ∈ [g1, g2, g3, g4] →
            g.data ≠ [] ∧ g.data.length ≤ 3 ∧ ∀ c ∈ g.data, c.isDigit = true := by
          intro g hg
          have hp := hprops g hg
          refine ⟨?_, hp.2.1, hp.2.2⟩
          intro e
          have : g.length = 0 := by
            show g.data.length = 0
            rw [e]
            rfl
          omega
        simp only [List.mem_cons, List.not_mem_nil, or_false] at hl
        rcases hl with rfl | rfl | rfl | rfl
        · exact hstr g1 (by simp)
        · exact hstr g2 (by simp)
        · exact hstr g3 (by simp)
        · exact hstr g4 (by simp)
  · intro s h
    unfold shouldShowIPv6
    simp only [Bool.not_true, Bool.false_eq_true, if_false]
    by_cases h0 : s = "0.0.0.0"
    · rw [if_pos h0]
    · rw [if_neg h0, if_pos (by rw [h])]
  · intro s h
    have h0 : s ≠ "0.0.0.0" := by
      intro e
      rw [e] at h
      exact absurd h (by decide)
    unfold shouldShowIPv6
    simp only [Bool.not_true, Bool.false_eq_true, if_false]
    rw [if_neg h0, if_neg (by rw [h]; simp)]

/-- Witness for C10: `999.0.0.1` decomposes into four digit groups, and a
plain hostname (no dots-and-digits shape, no colon) still enables the IPv6
listing when IPv6 is on. -/
theorem c10_ipv4_regex_witness :
    shouldShowIPv6 "999.0.0.1" true = false ∧ shouldShowIPv6 "myhost" true = true :=
  ⟨c10_ipv4_regex.2.2.1 "999.0.0.1" (by decide),
   c10_ipv4_regex.2.2.2 "myhost" (by decide)⟩
